import Mathlib

/-!
Shallow embedding of `covid_19/make_drugs_for_target_reports.py`.

The script assembles small-molecule inhibition statements for a fixed list
of protein targets, filters them, renders one HTML report per target,
uploads each report to S3, and writes a ranked drug list to a TSV file.

Python dictionaries that are only ever looked up are modelled as functions
into `Option`; dictionaries whose iteration order matters (such as
`agent_by_name`, iterated by `sorted` in `make_drug_list`, and the
`OrderedDict` of per-source counts) are modelled as association lists with
Python dict insertion-order semantics.  External library calls (the INDRA
database REST query, TAS processing, preassembly, curation filtering, HTML
assembly, S3 upload) are modelled as parameters.  A Python `KeyError` is
modelled by `Option`/`Except`.
-/

/-- An evidence object: only the fields the script reads. -/
structure Evidence where
  source_api : String
  text : String
  deriving DecidableEq, Repr

/-- An INDRA agent: name, grounding dictionary `db_refs`, and the result of
the library call `get_grounding()` (`none` models a falsy `db_ns`). -/
structure Agent where
  name : String
  db_refs : List (String × String)
  grounding : Option (String × String)
  deriving DecidableEq, Repr

/-- An INDRA statement as used by the script: subject, object, evidence
list, and the matches hash returned by `get_hash()` (a library value that
does not depend on the evidence list, hence a plain field). -/
structure Stmt where
  subj : Agent
  obj : Agent
  evidence : List Evidence
  hash : Int
  deriving DecidableEq, Repr

/-- The 16 source keys of `get_source_counts_dict`, in order. -/
def sourceKeys : List String :=
  ["reach", "phosphosite", "pc11", "hprd", "medscan", "trrust", "isi",
   "signor", "sparser", "rlimsp", "cbn", "tas", "bel_lc", "biogrid",
   "trips", "eidos"]

/-- `get_source_counts_dict`: an ordered dict with the 16 fixed source keys,
all initialised to 0. -/
def get_source_counts_dict : List (String × Nat) :=
  sourceKeys.map (fun k => (k, 0))

/-- `is_small_molecule`: truthiness of the set intersection of the agent
db_refs keys with CHEBI, PUBCHEM, CHEBML, HMS-LINCS.  Note the source
tests for the key CHEBML, not CHEMBL. -/
def is_small_molecule (agent : Agent) : Bool :=
  agent.db_refs.any (fun kv =>
    ["CHEBI", "PUBCHEM", "CHEBML", "HMS-LINCS"].contains kv.1)

/-- `filter_out_source_evidence`: keep, for each statement, only evidence
whose source_api is not in `sources`; drop a statement whose filtered
evidence list is empty. -/
def filter_out_source_evidence : List Stmt → List String → List Stmt
  | [], _ => []
  | stmt :: rest, sources =>
      let new_ev := stmt.evidence.filter (fun e => !sources.contains e.source_api)
      if new_ev.isEmpty then filter_out_source_evidence rest sources
      else { stmt with evidence := new_ev } :: filter_out_source_evidence rest sources

/-- The static `misgrounding_map` literal of the script. -/
def misgrounding_map : List (String × List String) :=
  [("CTSL", ["MEP"]), ("CTSB", ["APPs"]), ("FURIN", ["pace", "Fur"])]

/-- The loop body of `filter_misgrounding`: skip a statement whose object
TEXT grounding is in `misgr` (a missing TEXT key, Python `None`, is never
in a list of strings). -/
def filter_misgrounding_loop (misgr : List String) : List Stmt → List Stmt
  | [] => []
  | stmt :: rest =>
      match stmt.obj.db_refs.lookup "TEXT" with
      | some txt =>
          if misgr.contains txt then filter_misgrounding_loop misgr rest
          else stmt :: filter_misgrounding_loop misgr rest
      | none => stmt :: filter_misgrounding_loop misgr rest

/-- `filter_misgrounding`: look the target up in `misgrounding_map`; if the
entry is missing or falsy (empty) return the statements unchanged, else
run the filtering loop. -/
def filter_misgrounding (target : String) (stmts : List Stmt) : List Stmt :=
  match misgrounding_map.lookup target with
  | none => stmts
  | some misgr => if misgr.isEmpty then stmts else filter_misgrounding_loop misgr stmts

/-- `get_db_stmts`: query the INDRA DB REST service with the target as
object, statement type Inhibition and evidence limit 10000 (the service is
the parameter `query`), keep statements whose subject is a small molecule,
then strip tas and medscan evidence. -/
def get_db_stmts (query : String → String → Nat → List Stmt) (target : String) :
    List Stmt :=
  let ipStatements := query target "Inhibition" 10000
  let db_stmts := ipStatements.filter (fun s => is_small_molecule s.subj)
  filter_out_source_evidence db_stmts ["tas", "medscan"]

/-- The `ev_counts` dict comprehension of `get_statements`: statement hash
to length of the evidence list (a later statement with the same hash
overwrites an earlier one, as in a Python dict). -/
def ev_counts (stmts : List Stmt) : Int → Option Nat :=
  stmts.foldl
    (fun d s => fun h => if h = s.hash then some s.evidence.length else d h)
    (fun _ => none)

/-- One increment `d[k] += 1` on an ordered count dict; `none` models the
Python KeyError raised when `k` is not a key of `d`. -/
def incr (d : List (String × Nat)) (k : String) : Option (List (String × Nat)) :=
  if d.any (fun kv => kv.1 == k) then
    some (d.map (fun kv => if kv.1 == k then (kv.1, kv.2 + 1) else kv))
  else none

/-- The per-statement tally loop of `get_statements`: start from
`get_source_counts_dict` and increment the entry of each evidence item
source_api; `none` models the KeyError on an unknown source_api. -/
def stmtSourceCounts (evs : List Evidence) : Option (List (String × Nat)) :=
  evs.foldl (fun acc e => acc.bind (fun d => incr d e.source_api))
    (some get_source_counts_dict)

/-- The `source_counts` dict built by `get_statements`: statement hash to
per-source tally; `none` models a KeyError on any statement. -/
def source_counts (stmts : List Stmt) :
    Option (Int → Option (List (String × Nat))) :=
  stmts.foldl
    (fun acc s =>
      match acc with
      | none => none
      | some m =>
          match stmtSourceCounts s.evidence with
          | none => none
          | some d => some (fun h => if h = s.hash then some d else m h))
    (some (fun _ => none))

/-- Python dict assignment on an association list: replace the value in
place when the key is present, else append (insertion order preserved). -/
def dictSet (d : List (String × Agent)) (k : String) (v : Agent) :
    List (String × Agent) :=
  if d.any (fun kv => kv.1 == k) then
    d.map (fun kv => if kv.1 == k then (kv.1, v) else kv)
  else d ++ [(k, v)]

/-- The `agent_by_name` dict of `make_drug_list`. -/
def agent_by_name (stmts : List Stmt) : List (String × Agent) :=
  stmts.foldl (fun d s => dictSet d s.subj.name s.subj) []

/-- The `counts_by_name` defaultdict of `make_drug_list`:
`counts_by_name[subj.name] += ev_counts.get(hash, 0)` per statement. -/
def counts_by_name (stmts : List Stmt) (ev : Int → Option Nat) : String → Nat :=
  stmts.foldl
    (fun c s => fun n =>
      if n = s.subj.name then c n + (ev s.hash).getD 0 else c n)
    (fun _ => 0)

/-- The grounding suffix appended to a compound name when `get_grounding`
returns a truthy namespace. -/
def groundingStr (agent : Agent) : String :=
  match agent.grounding with
  | some g => " (" ++ g.1 ++ ":" ++ g.2 ++ ")"
  | none => ""

/-- The `drug_list` built by `make_drug_list`: the `agent_by_name` items
sorted by `counts_by_name` in decreasing order (Python sorted is stable;
`mergeSort` with this relation matches), each rendered as a
(compound, aggregated count) pair. -/
def drug_list (stmts : List Stmt) (ev : Int → Option Nat) :
    List (String × Nat) :=
  let cnts := counts_by_name stmts ev
  ((agent_by_name stmts).mergeSort
      (fun a b => decide (cnts b.1 ≤ cnts a.1))).map
    (fun na => (na.1 ++ groundingStr na.2, cnts na.1))

/-- The content written to `indra_drug_list.tsv`: one `fh.write` per
compound, each emitting compound, count and the fixed literal
INDRA (text mining/databases), tab separated, newline terminated. -/
def drug_list_file (stmts : List Stmt) (ev : Int → Option Nat) : String :=
  (drug_list stmts ev).foldl
    (fun acc c =>
      acc ++ c.1 ++ "\t" ++ toString c.2 ++ "\t" ++
        "INDRA (text mining/databases)" ++ "\n")
    ""

/-- The fixed target list of the main block. -/
def targets : List String := ["TMPRSS2", "ACE2", "FURIN", "CTSB", "CTSL"]

/-- One `put_object` call: the four keyword arguments fixed at the call
site in the main loop. -/
structure Upload where
  bucket : String
  key : String
  acl : String
  contentType : String
  deriving DecidableEq, Repr

/-- The merge of per-target `ev_counts` into `all_ev_counts` in the main
loop: add on common hashes, copy new ones. -/
def mergeEv (a b : Int → Option Nat) : Int → Option Nat :=
  fun h =>
    match b h with
    | none => a h
    | some v =>
        match a h with
        | none => some v
        | some w => some (w + v)

/-- The external effects of the script, each fallible (`Except` models an
uncaught Python exception): the DB handle, the curation fetch, TAS
processing, per-target statement assembly, HTML rendering, and the S3
upload. -/
structure EnvE where
  getDb : Except String Unit
  getCurations : Except String Unit
  tasWeb : Except String Unit
  getStmts : String → Except String (List Stmt × (Int → Option Nat))
  makeHtml : String → Except String Unit
  upload : String → Except String Unit

/-- The main loop over the targets: fetch statements, extend `all_stmts`
and `all_ev_counts`, render the HTML file, upload it with the fixed
bucket, key prefix, ACL and content type; any failure propagates. -/
def loopE (env : EnvE) :
    List String →
    List Stmt × (Int → Option Nat) × List Upload →
    Except String (List Stmt × (Int → Option Nat) × List Upload)
  | [], acc => .ok acc
  | t :: ts, (allS, allEv, ups) =>
      match env.getStmts t with
      | .error e => .error e
      | .ok (stmts, ev) =>
          match env.makeHtml t with
          | .error e => .error e
          | .ok _ =>
              match env.upload t with
              | .error e => .error e
              | .ok _ =>
                  loopE env ts
                    (allS ++ stmts, mergeEv allEv ev,
                     ups ++ [{ bucket := "indra-covid19",
                               key := "drugs_for_target/" ++ t ++ ".html",
                               acl := "public-read",
                               contentType := "text/html" }])

/-- The main block: build the DB handle, fetch curations, process TAS,
loop over the targets, then write the drug list; the result is the upload
trace and the drug-list file content, or the first uncaught exception. -/
def mainE (env : EnvE) : Except String (List Upload × String) :=
  match env.getDb with
  | .error e => .error e
  | .ok _ =>
      match env.getCurations with
      | .error e => .error e
      | .ok _ =>
          match env.tasWeb with
          | .error e => .error e
          | .ok _ =>
              match loopE env targets ([], fun _ => none, []) with
              | .error e => .error e
              | .ok (allS, allEv, ups) => .ok (ups, drug_list_file allS allEv)

/-- Spec-side aggregated evidence count of a compound name: the sum of
ev_counts values over statements whose subject has that name, taking 0
for hashes absent from ev_counts. -/
def aggCount (stmts : List Stmt) (ev : Int → Option Nat) (name : String) : Nat :=
  ((stmts.filter (fun s => s.subj.name == name)).map
    (fun s => (ev s.hash).getD 0)).sum

/-- The number of evidence items whose source_api equals `k`. -/
def cntSrc (evs : List Evidence) (k : String) : Nat :=
  (evs.filter (fun e => e.source_api == k)).length

/-- Spec-side per-statement source tally: over the 16 fixed source keys,
the number of evidence items whose source_api equals each key. -/
def specSourceTally (evs : List Evidence) : List (String × Nat) :=
  sourceKeys.map (fun k => (k, cntSrc evs k))

/-- Whether every evidence item of every statement has one of the 16 fixed
source keys as its source_api. -/
def allSourcesKnown (stmts : List Stmt) : Bool :=
  stmts.all (fun s => s.evidence.all (fun e => sourceKeys.contains e.source_api))

/-! ## Concrete fixtures used to instantiate theorems -/

/-- A small-molecule example agent. -/
def exAspirin : Agent :=
  { name := "aspirin", db_refs := [("CHEBI", "15365")],
    grounding := some ("CHEBI", "15365") }

/-- An example protein target agent. -/
def exTarget : Agent :=
  { name := "ACE2", db_refs := [("TEXT", "ace2")], grounding := none }

/-- An example reach evidence item. -/
def exEvReach : Evidence := { source_api := "reach", text := "t" }

/-- An example tas evidence item. -/
def exEvTas : Evidence := { source_api := "tas", text := "u" }

/-- An example statement with mixed evidence. -/
def exStmt1 : Stmt :=
  { subj := exAspirin, obj := exTarget,
    evidence := [exEvTas, exEvReach], hash := 1 }

/-- An example statement whose evidence is entirely from tas. -/
def exStmt2 : Stmt :=
  { subj := { name := "c", db_refs := [], grounding := none }, obj := exTarget,
    evidence := [exEvTas], hash := 2 }

/-- `exStmt1` after stripping its tas evidence. -/
def exStmt1Stripped : Stmt := { exStmt1 with evidence := [exEvReach] }

/-- An agent grounded only to ChEMBL. -/
def exChembl : Agent :=
  { name := "chloroquine", db_refs := [("CHEMBL", "CHEMBL76")],
    grounding := some ("CHEMBL", "CHEMBL76") }

/-- An example evidence-count map assigning 3 to hash 1. -/
def exEv : Int → Option Nat :=
  fun h => if h = 1 then some 3 else none

/-! ## Helper lemmas -/

/-- Keep-predicate of the misgrounding loop: a statement is kept unless its
object TEXT grounding is one of the misgrounded strings. -/
def keptByMisgr (misgr : List String) (s : Stmt) : Bool :=
  match s.obj.db_refs.lookup "TEXT" with
  | some txt => !misgr.contains txt
  | none => true

/-- All three effectful calls of one main-loop iteration succeed. -/
def okTarget (env : EnvE) (t : String) : Prop :=
  (∃ r, env.getStmts t = .ok r) ∧
  env.makeHtml t = .ok () ∧ env.upload t = .ok ()

/-- The upload trace of a successful run of the main block. -/
def mainUploads (env : EnvE) : Option (List Upload) :=
  match mainE env with
  | .ok (ups, _) => some ups
  | .error _ => none

/-- An environment in which every external call succeeds. -/
def exEnvOk : EnvE :=
  { getDb := .ok (), getCurations := .ok (), tasWeb := .ok (),
    getStmts := fun _ => .ok ([], fun _ => none),
    makeHtml := fun _ => .ok (), upload := fun _ => .ok () }

/-- An environment in which building the DB handle raises. -/
def exEnvBad : EnvE :=
  { getDb := .error "db down", getCurations := .ok (), tasWeb := .ok (),
    getStmts := fun _ => .ok ([], fun _ => none),
    makeHtml := fun _ => .ok (), upload := fun _ => .ok () }

theorem filter_misgrounding_loop_eq_filter (misgr : List String) :
    ∀ stmts, filter_misgrounding_loop misgr stmts = stmts.filter (keptByMisgr misgr)
  | [] => rfl
  | s :: rest => by
      rw [filter_misgrounding_loop]
      rw [List.filter_cons]
      rw [filter_misgrounding_loop_eq_filter misgr rest]
      cases h : s.obj.db_refs.lookup "TEXT" with
      | none => simp [keptByMisgr, h]
      | some txt =>
          by_cases hc : misgr.contains txt
          · simp [keptByMisgr, h, hc]
          · simp only [Bool.not_eq_true] at hc
            simp [keptByMisgr, h, hc]

theorem filter_true_of_kept_nil (stmts : List Stmt) :
    stmts.filter (keptByMisgr []) = stmts := by
  rw [List.filter_eq_self]
  intro s _
  unfold keptByMisgr
  cases s.obj.db_refs.lookup "TEXT" <;> simp

/-- C3: filter_misgrounding removes exactly the statements whose object
TEXT grounding is one of the misgrounded strings listed for the target in
the fixed misgrounding_map, and it returns the list unchanged for a target
with a missing or empty map entry. -/
theorem C3_filter_misgrounding_static_table (target : String) (stmts : List Stmt) :
    filter_misgrounding target stmts =
      stmts.filter (keptByMisgr ((misgrounding_map.lookup target).getD [])) ∧
    (misgrounding_map.lookup target = none ∨ misgrounding_map.lookup target = some [] →
      filter_misgrounding target stmts = stmts) := by
  constructor
  · unfold filter_misgrounding
    cases h : misgrounding_map.lookup target with
    | none =>
        simp only [Option.getD_none]
        exact (filter_true_of_kept_nil stmts).symm
    | some misgr =>
        simp only [Option.getD_some]
        by_cases hemp : misgr.isEmpty
        · rw [if_pos hemp]
          rw [List.isEmpty_iff] at hemp
          subst hemp
          exact (filter_true_of_kept_nil stmts).symm
        · rw [if_neg hemp]
          exact filter_misgrounding_loop_eq_filter misgr stmts
  · intro h
    unfold filter_misgrounding
    cases h with
    | inl h => rw [h]
    | inr h => rw [h]; simp

/-- C3 witness: a concrete run; the target ACE2 has no misgrounding entry
and FURIN filters out a statement whose object TEXT is pace. -/
theorem C3_witness :
    (misgrounding_map.lookup "ACE2" = none ∨
      misgrounding_map.lookup "ACE2" = some []) ∧
    filter_misgrounding "ACE2"
      [{ subj := { name := "a", db_refs := [], grounding := none },
         obj := { name := "b", db_refs := [("TEXT", "pace")], grounding := none },
         evidence := [], hash := 1 }] =
      [{ subj := { name := "a", db_refs := [], grounding := none },
         obj := { name := "b", db_refs := [("TEXT", "pace")], grounding := none },
         evidence := [], hash := 1 }] :=
  ⟨Or.inl (by decide),
   (C3_filter_misgrounding_static_table "ACE2" _).2 (Or.inl (by decide))⟩

theorem filter_out_source_evidence_eq_filterMap :
    ∀ (stmts : List Stmt) (sources : List String),
      filter_out_source_evidence stmts sources =
        stmts.filterMap (fun s =>
          let ev := s.evidence.filter (fun e => !sources.contains e.source_api)
          if ev.isEmpty then none else some { s with evidence := ev })
  | [], _ => rfl
  | stmt :: rest, sources => by
      rw [filter_out_source_evidence]
      rw [List.filterMap_cons]
      simp only
      by_cases hemp :
          (stmt.evidence.filter (fun e => !sources.contains e.source_api)).isEmpty
      · rw [if_pos hemp, if_pos hemp]
        exact filter_out_source_evidence_eq_filterMap rest sources
      · rw [if_neg hemp, if_neg hemp]
        rw [filter_out_source_evidence_eq_filterMap rest sources]

/-- C8: every statement surviving filter_out_source_evidence has a
non-empty evidence list in which no item carries an excluded source_api;
a statement whose evidence all comes from excluded sources is dropped. -/
theorem C8_filter_out_source_evidence_invariant :
    ∀ (stmts : List Stmt) (sources : List String) (s : Stmt),
      s ∈ filter_out_source_evidence stmts sources →
      s.evidence ≠ [] ∧ ∀ e ∈ s.evidence, sources.contains e.source_api = false
  | [], _, s, hs => absurd hs (List.not_mem_nil s)
  | stmt :: rest, sources, s, hs => by
      rw [filter_out_source_evidence] at hs
      by_cases hemp :
          (stmt.evidence.filter (fun e => !sources.contains e.source_api)).isEmpty
      · rw [if_pos hemp] at hs
        exact C8_filter_out_source_evidence_invariant rest sources s hs
      · rw [if_neg hemp] at hs
        rcases List.mem_cons.mp hs with heq | hmem
        · subst heq
          constructor
          · intro hnil
            exact hemp (List.isEmpty_iff.mpr hnil)
          · intro e he
            have := List.of_mem_filter he
            simpa using this
        · exact C8_filter_out_source_evidence_invariant rest sources s hmem

/-- C8 witness: a statement whose only evidence is from tas is dropped,
and the surviving statement keeps a non-empty evidence list. -/
theorem C8_witness :
    exStmt1Stripped ∈
      filter_out_source_evidence [exStmt1, exStmt2] ["tas", "medscan"] ∧
    exStmt1Stripped.evidence ≠ [] :=
  ⟨by decide,
   (C8_filter_out_source_evidence_invariant [exStmt1, exStmt2]
      ["tas", "medscan"] exStmt1Stripped (by decide)).1⟩

/-- C4: get_db_stmts equals, for every database response, the pipeline
that keeps small-molecule-subject statements from the query with object
target, type Inhibition and evidence limit 10000, strips tas and medscan
evidence, and drops statements left without evidence. -/
theorem C4_get_db_stmts_pipeline
    (query : String → String → Nat → List Stmt) (target : String) :
    get_db_stmts query target =
      (query target "Inhibition" 10000).filterMap (fun s =>
        if is_small_molecule s.subj then
          if (s.evidence.filter
                (fun e => !(["tas", "medscan"] : List String).contains e.source_api)).isEmpty
          then none
          else some { s with evidence :=
            (s.evidence.filter
              (fun e => !(["tas", "medscan"] : List String).contains e.source_api)) }
        else none) := by
  unfold get_db_stmts
  rw [filter_out_source_evidence_eq_filterMap, List.filterMap_filter]

theorem subj_of_mem_filter_out (stmts : List Stmt) (sources : List String)
    (s : Stmt) (hs : s ∈ filter_out_source_evidence stmts sources) :
    ∃ s₀ ∈ stmts, s.subj = s₀.subj := by
  rw [filter_out_source_evidence_eq_filterMap] at hs
  rcases List.mem_filterMap.mp hs with ⟨a, ha, hfa⟩
  refine ⟨a, ha, ?_⟩
  by_cases hemp :
      (a.evidence.filter (fun e => !sources.contains e.source_api)).isEmpty
  · rw [if_pos hemp] at hfa
    exact absurd hfa (by simp)
  · rw [if_neg hemp] at hfa
    have := Option.some.inj hfa
    rw [← this]

theorem small_molecule_of_mem_get_db_stmts
    (query : String → String → Nat → List Stmt) (target : String) (s : Stmt)
    (hs : s ∈ get_db_stmts query target) : is_small_molecule s.subj = true := by
  unfold get_db_stmts at hs
  rcases subj_of_mem_filter_out _ _ s hs with ⟨s₀, hs₀, hsubj⟩
  rw [hsubj]
  exact (List.mem_filter.mp hs₀).2

/-- C9: an agent grounded to CHEMBL but to none of CHEBI, PUBCHEM, CHEBML,
HMS-LINCS is not a small molecule for is_small_molecule (the source tests
the key CHEBML, not CHEMBL), so no statement returned by get_db_stmts has
such an agent as its subject. -/
theorem C9_chembl_typo_excluded (a : Agent)
    (h1 : "CHEMBL" ∈ a.db_refs.map Prod.fst)
    (h2 : ∀ k ∈ (["CHEBI", "PUBCHEM", "CHEBML", "HMS-LINCS"] : List String),
        k ∉ a.db_refs.map Prod.fst) :
    is_small_molecule a = false ∧
    ∀ (query : String → String → Nat → List Stmt) (target : String) (s : Stmt),
      s ∈ get_db_stmts query target → s.subj ≠ a := by
  have hfalse : is_small_molecule a = false := by
    unfold is_small_molecule
    rw [List.any_eq_false]
    intro kv hkv hcontains
    have hk : kv.1 ∈ (["CHEBI", "PUBCHEM", "CHEBML", "HMS-LINCS"] : List String) :=
      List.elem_iff.mp hcontains
    exact h2 kv.1 hk (List.mem_map.mpr ⟨kv, hkv, rfl⟩)
  refine ⟨hfalse, ?_⟩
  intro query target s hs hsubj
  have hsm := small_molecule_of_mem_get_db_stmts query target s hs
  rw [hsubj, hfalse] at hsm
  exact Bool.false_ne_true hsm

/-- C9 witness: a concrete agent grounded only to CHEMBL is not classified
as a small molecule. -/
theorem C9_witness :
    ("CHEMBL" ∈ exChembl.db_refs.map Prod.fst ∧
      ∀ k ∈ (["CHEBI", "PUBCHEM", "CHEBML", "HMS-LINCS"] : List String),
        k ∉ exChembl.db_refs.map Prod.fst) ∧
    is_small_molecule exChembl = false :=
  ⟨⟨by decide, by decide⟩,
   (C9_chembl_typo_excluded exChembl (by decide) (by decide)).1⟩

theorem contains_iff_mem (l : List String) (a : String) :
    l.contains a = true ↔ a ∈ l := List.elem_iff

theorem bump_keys (d : List (String × Nat)) (k : String) :
    (d.map (fun kv => if kv.1 == k then (kv.1, kv.2 + 1) else kv)).map Prod.fst
      = d.map Prod.fst := by
  rw [List.map_map]
  apply List.map_congr_left
  intro kv _
  simp only [Function.comp_apply]
  split <;> rfl

theorem get_source_counts_dict_keys :
    get_source_counts_dict.map Prod.fst = sourceKeys := by
  unfold get_source_counts_dict
  rw [List.map_map]
  have hcomp : (Prod.fst ∘ fun k : String => (k, (0 : Nat))) = id := rfl
  rw [hcomp, List.map_id]

theorem incr_eq_of_mem (d : List (String × Nat)) (k : String)
    (hk : k ∈ d.map Prod.fst) :
    incr d k =
      some (d.map (fun kv => if kv.1 == k then (kv.1, kv.2 + 1) else kv)) := by
  unfold incr
  rcases List.mem_map.mp hk with ⟨kv, hkv, hfst⟩
  rw [if_pos (List.any_eq_true.mpr ⟨kv, hkv, by simp [hfst]⟩)]

theorem incr_eq_none_of_not_mem (d : List (String × Nat)) (k : String)
    (hk : k ∉ d.map Prod.fst) : incr d k = none := by
  unfold incr
  rw [if_neg]
  intro hany
  rcases List.any_eq_true.mp hany with ⟨kv, hkv, hbeq⟩
  exact hk (List.mem_map.mpr ⟨kv, hkv, by simpa using hbeq⟩)

theorem stmtFold_none (evs : List Evidence) :
    evs.foldl (fun acc e => acc.bind (fun d => incr d e.source_api)) none = none := by
  induction evs with
  | nil => rfl
  | cons e evs ih => rw [List.foldl_cons]; exact ih

theorem stmtFold_isSome :
    ∀ (evs : List Evidence) (d : List (String × Nat)),
      (evs.foldl (fun acc e => acc.bind (fun d => incr d e.source_api))
          (some d)).isSome = true ↔
        ∀ e ∈ evs, e.source_api ∈ d.map Prod.fst
  | [], d => by simp
  | e :: evs, d => by
      rw [List.foldl_cons, List.forall_mem_cons]
      simp only [Option.some_bind]
      by_cases hk : e.source_api ∈ d.map Prod.fst
      · rw [incr_eq_of_mem d e.source_api hk]
        rw [stmtFold_isSome evs _, bump_keys]
        simp [hk]
      · rw [incr_eq_none_of_not_mem d e.source_api hk, stmtFold_none]
        simp [hk]

theorem scFold_none (stmts : List Stmt) :
    stmts.foldl
      (fun acc s =>
        match acc with
        | none => none
        | some m =>
            match stmtSourceCounts s.evidence with
            | none => none
            | some d => some (fun h => if h = s.hash then some d else m h))
      none = none := by
  induction stmts with
  | nil => rfl
  | cons s stmts ih => rw [List.foldl_cons]; exact ih

theorem scFold_isSome :
    ∀ (stmts : List Stmt) (m : Int → Option (List (String × Nat))),
      (stmts.foldl
        (fun acc s =>
          match acc with
          | none => none
          | some m =>
              match stmtSourceCounts s.evidence with
              | none => none
              | some d => some (fun h => if h = s.hash then some d else m h))
        (some m)).isSome = true ↔
      ∀ s ∈ stmts, (stmtSourceCounts s.evidence).isSome = true
  | [], m => by simp
  | s :: stmts, m => by
      rw [List.foldl_cons, List.forall_mem_cons]
      cases hd : stmtSourceCounts s.evidence with
      | none =>
          simp only [hd]
          rw [scFold_none]
          simp
      | some d =>
          simp only [hd]
          rw [scFold_isSome stmts _]
          simp

/-- C10: the per-statement source tally of get_statements is total exactly
when every evidence item of every statement carries one of the 16 fixed
source keys; any other source_api makes the increment raise a KeyError,
modelled as the tally returning none. -/
theorem C10_source_tally_total_iff_sources_known (stmts : List Stmt) :
    (source_counts stmts).isSome ↔ allSourcesKnown stmts = true := by
  unfold source_counts
  rw [scFold_isSome]
  unfold allSourcesKnown
  rw [List.all_eq_true]
  apply forall_congr'
  intro s
  apply imp_congr_right
  intro _
  unfold stmtSourceCounts
  rw [stmtFold_isSome, get_source_counts_dict_keys, List.all_eq_true]
  apply forall_congr'
  intro e
  apply imp_congr_right
  intro _
  exact (contains_iff_mem sourceKeys e.source_api).symm

theorem evFold_not_mem :
    ∀ (stmts : List Stmt) (f : Int → Option Nat) (h : Int),
      h ∉ stmts.map Stmt.hash →
      (stmts.foldl
        (fun d s => fun x => if x = s.hash then some s.evidence.length else d x)
        f) h = f h
  | [], _, _, _ => rfl
  | t :: rest, f, h, hh => by
      rw [List.foldl_cons]
      have hmem : h ∉ rest.map Stmt.hash := fun hc =>
        hh (List.mem_cons_of_mem _ hc)
      have hne : h ≠ t.hash := by
        intro hc
        apply hh
        rw [List.map_cons, hc]
        exact List.mem_cons_self _ _
      rw [evFold_not_mem rest _ h hmem]
      simp [hne]

theorem evFold_eq :
    ∀ (stmts : List Stmt) (f : Int → Option Nat),
      (stmts.map Stmt.hash).Nodup →
      ∀ s ∈ stmts,
        (stmts.foldl
          (fun d s => fun x => if x = s.hash then some s.evidence.length else d x)
          f) s.hash = some s.evidence.length
  | [], _, _, s, hs => absurd hs (List.not_mem_nil s)
  | t :: rest, f, hnd, s, hs => by
      rw [List.map_cons, List.nodup_cons] at hnd
      rw [List.foldl_cons]
      rcases List.mem_cons.mp hs with heq | hmem
      · subst heq
        rw [evFold_not_mem rest _ s.hash hnd.1]
        simp
      · exact evFold_eq rest _ hnd.2 s hmem

theorem stmtFold_val :
    ∀ (evs : List Evidence) (d : List (String × Nat)),
      (∀ e ∈ evs, e.source_api ∈ d.map Prod.fst) →
      evs.foldl (fun acc e => acc.bind (fun d => incr d e.source_api)) (some d) =
        some (d.map (fun kv => (kv.1, kv.2 + cntSrc evs kv.1)))
  | [], d, _ => by
      rw [List.foldl_nil]
      have hid : ∀ kv ∈ d, (kv.1, kv.2 + cntSrc [] kv.1) = id kv := by
        intro kv _
        simp [cntSrc]
      rw [List.map_congr_left hid, List.map_id]
  | e :: evs, d, hall => by
      rw [List.foldl_cons]
      simp only [Option.some_bind]
      rw [incr_eq_of_mem d e.source_api (hall e (List.mem_cons_self e evs))]
      rw [stmtFold_val evs _ (by
        rw [bump_keys]
        exact fun e' he' => hall e' (List.mem_cons_of_mem _ he'))]
      congr 1
      rw [List.map_map]
      apply List.map_congr_left
      intro kv _
      simp only [Function.comp_apply]
      by_cases hb : (kv.1 == e.source_api) = true
      · rw [if_pos hb]
        have hkeq : kv.1 = e.source_api := by simpa using hb
        have hcnt : cntSrc (e :: evs) kv.1 = cntSrc evs kv.1 + 1 := by
          unfold cntSrc
          rw [List.filter_cons, if_pos (by simp [hkeq])]
          simp
        rw [hcnt]
        simp only [Prod.mk.injEq, true_and]
        omega
      · rw [if_neg hb]
        have hkne : ¬ kv.1 = e.source_api := by simpa using hb
        have hcnt : cntSrc (e :: evs) kv.1 = cntSrc evs kv.1 := by
          unfold cntSrc
          rw [List.filter_cons, if_neg (by simp; exact fun hc => hkne hc.symm)]
        rw [hcnt]

theorem stmtSourceCounts_val (evs : List Evidence)
    (hall : ∀ e ∈ evs, e.source_api ∈ sourceKeys) :
    stmtSourceCounts evs = some (specSourceTally evs) := by
  unfold stmtSourceCounts
  rw [stmtFold_val evs _ (by rw [get_source_counts_dict_keys]; exact hall)]
  congr 1
  unfold get_source_counts_dict specSourceTally
  rw [List.map_map]
  apply List.map_congr_left
  intro k _
  simp

theorem scFold_ok :
    ∀ (stmts : List Stmt) (m0 : Int → Option (List (String × Nat))),
      (∀ s ∈ stmts, (stmtSourceCounts s.evidence).isSome = true) →
      ∃ m,
        stmts.foldl
          (fun acc s =>
            match acc with
            | none => none
            | some m =>
                match stmtSourceCounts s.evidence with
                | none => none
                | some d => some (fun h => if h = s.hash then some d else m h))
          (some m0) = some m ∧
        ∀ h, h ∉ stmts.map Stmt.hash → m h = m0 h
  | [], m0, _ => ⟨m0, rfl, fun _ _ => rfl⟩
  | t :: rest, m0, hok => by
      rcases Option.isSome_iff_exists.mp (hok t (List.mem_cons_self t rest)) with ⟨d, hd⟩
      rw [List.foldl_cons]
      simp only [hd]
      rcases scFold_ok rest (fun h => if h = t.hash then some d else m0 h)
          (fun s hs => hok s (List.mem_cons_of_mem _ hs)) with ⟨m, hm, hpres⟩
      refine ⟨m, hm, ?_⟩
      intro h hh
      rw [List.map_cons] at hh
      have hne : h ≠ t.hash := fun hc => hh (by rw [hc]; exact List.mem_cons_self _ _)
      have hrest : h ∉ rest.map Stmt.hash := fun hc => hh (List.mem_cons_of_mem _ hc)
      rw [hpres h hrest]
      simp [hne]

theorem scFold_lookup :
    ∀ (stmts : List Stmt) (m0 : Int → Option (List (String × Nat))),
      (stmts.map Stmt.hash).Nodup →
      (∀ s ∈ stmts, (stmtSourceCounts s.evidence).isSome = true) →
      ∀ s ∈ stmts, ∃ m d,
        stmts.foldl
          (fun acc s =>
            match acc with
            | none => none
            | some m =>
                match stmtSourceCounts s.evidence with
                | none => none
                | some d => some (fun h => if h = s.hash then some d else m h))
          (some m0) = some m ∧
        stmtSourceCounts s.evidence = some d ∧ m s.hash = some d
  | [], _, _, _, s, hs => absurd hs (List.not_mem_nil s)
  | t :: rest, m0, hnd, hok, s, hs => by
      rw [List.map_cons, List.nodup_cons] at hnd
      rcases Option.isSome_iff_exists.mp (hok t (List.mem_cons_self t rest)) with ⟨d, hd⟩
      rw [List.foldl_cons]
      simp only [hd]
      rcases List.mem_cons.mp hs with heq | hmem
      · subst heq
        rcases scFold_ok rest (fun h => if h = s.hash then some d else m0 h)
            (fun s' hs' => hok s' (List.mem_cons_of_mem _ hs')) with ⟨m, hm, hpres⟩
        refine ⟨m, d, hm, hd, ?_⟩
        rw [hpres s.hash hnd.1]
        simp
      · exact scFold_lookup rest _ hnd.2
          (fun s' hs' => hok s' (List.mem_cons_of_mem _ hs')) s hmem

/-- C2: for assembled statements (distinct hashes, all evidence sources
among the 16 fixed keys), ev_counts maps each statement hash to its total
number of evidence items, and source_counts maps it to the tally that
starts from the 16 fixed keys of get_source_counts_dict at 0 and counts,
per source identifier, the evidence items with that source_api. -/
theorem C2_evidence_tallies (stmts : List Stmt)
    (hnd : (stmts.map Stmt.hash).Nodup)
    (hknown : ∀ s ∈ stmts, ∀ e ∈ s.evidence, e.source_api ∈ sourceKeys) :
    ∀ s ∈ stmts,
      ev_counts stmts s.hash = some s.evidence.length ∧
      ∃ m, source_counts stmts = some m ∧
        m s.hash = some (specSourceTally s.evidence) := by
  intro s hs
  constructor
  · exact evFold_eq stmts _ hnd s hs
  · have hok : ∀ s ∈ stmts, (stmtSourceCounts s.evidence).isSome = true := by
      intro s' hs'
      rw [stmtSourceCounts_val s'.evidence (hknown s' hs')]
      rfl
    rcases scFold_lookup stmts (fun _ => none) hnd hok s hs with ⟨m, d, hm, hd, hmd⟩
    refine ⟨m, hm, ?_⟩
    rw [hmd]
    rw [stmtSourceCounts_val s.evidence (hknown s hs)] at hd
    exact congrArg some (Option.some.inj hd).symm

/-- C2 witness: a concrete single-statement list with a reach evidence
item; its hash maps to evidence total 1. -/
theorem C2_witness :
    ((([exStmt1Stripped] : List Stmt).map Stmt.hash).Nodup ∧
      ∀ s ∈ ([exStmt1Stripped] : List Stmt), ∀ e ∈ s.evidence,
        e.source_api ∈ sourceKeys) ∧
    ev_counts [exStmt1Stripped] exStmt1Stripped.hash =
      some exStmt1Stripped.evidence.length :=
  ⟨⟨by decide, by decide⟩,
   (C2_evidence_tallies [exStmt1Stripped] (by decide) (by decide)
      exStmt1Stripped (by decide)).1⟩

theorem countsFold_eq :
    ∀ (stmts : List Stmt) (ev : Int → Option Nat) (c : String → Nat) (n : String),
      (stmts.foldl
        (fun c s => fun n =>
          if n = s.subj.name then c n + (ev s.hash).getD 0 else c n)
        c) n = c n + aggCount stmts ev n
  | [], ev, c, n => by simp [aggCount]
  | s :: rest, ev, c, n => by
      rw [List.foldl_cons]
      rw [countsFold_eq rest ev _ n]
      show (if n = s.subj.name then c n + (ev s.hash).getD 0 else c n) +
          aggCount rest ev n = c n + aggCount (s :: rest) ev n
      unfold aggCount
      rw [List.filter_cons]
      by_cases hn : n = s.subj.name
      · rw [if_pos hn]
        rw [if_pos (show (s.subj.name == n) = true by simp [hn])]
        rw [List.map_cons, List.sum_cons]
        omega
      · rw [if_neg hn]
        rw [if_neg (show ¬ (s.subj.name == n) = true by
          simp only [beq_iff_eq]
          exact fun hc => hn hc.symm)]

theorem counts_by_name_eq (stmts : List Stmt) (ev : Int → Option Nat) (n : String) :
    counts_by_name stmts ev n = aggCount stmts ev n := by
  unfold counts_by_name
  rw [countsFold_eq]
  exact Nat.zero_add _

/-- C1: the drug list written by make_drug_list is ranked by aggregated
evidence count in decreasing order, and every written count is the sum of
ev_counts values (0 for missing hashes) over the statements whose subject
carries that compound name. -/
theorem C1_drug_list_ranked (stmts : List Stmt) (ev : Int → Option Nat) :
    List.Pairwise (fun a b => b.2 ≤ a.2) (drug_list stmts ev) ∧
    ∀ p ∈ drug_list stmts ev, ∃ name, p.2 = aggCount stmts ev name := by
  constructor
  · show List.Pairwise (fun a b => b.2 ≤ a.2)
      (((agent_by_name stmts).mergeSort
          (fun a b => decide (counts_by_name stmts ev b.1 ≤ counts_by_name stmts ev a.1))).map
        (fun na => (na.1 ++ groundingStr na.2, counts_by_name stmts ev na.1)))
    rw [List.pairwise_map]
    have hs := @List.sorted_mergeSort (String × Agent)
      (fun a b =>
        decide (counts_by_name stmts ev b.1 ≤ counts_by_name stmts ev a.1))
      (fun a b c hab hbc => by
        have h1 := of_decide_eq_true hab
        have h2 := of_decide_eq_true hbc
        exact decide_eq_true (le_trans h2 h1))
      (fun a b => by
        rcases Nat.le_total (counts_by_name stmts ev b.1) (counts_by_name stmts ev a.1)
          with h | h <;> simp [h])
      (agent_by_name stmts)
    exact hs.imp (fun h => of_decide_eq_true h)
  · intro p hp
    have hp' : p ∈ ((agent_by_name stmts).mergeSort
        (fun a b => decide (counts_by_name stmts ev b.1 ≤ counts_by_name stmts ev a.1))).map
          (fun na => (na.1 ++ groundingStr na.2, counts_by_name stmts ev na.1)) := hp
    rcases List.mem_map.mp hp' with ⟨na, _, hfp⟩
    refine ⟨na.1, ?_⟩
    rw [← hfp]
    exact counts_by_name_eq stmts ev na.1

/-- C1 witness: a concrete one-statement run; the single drug-list entry
has the aggregated count of the aspirin statements. -/
theorem C1_witness :
    (("aspirin (CHEBI:15365)", 3) : String × Nat) ∈ drug_list [exStmt1Stripped] exEv ∧
    ∃ name,
      (("aspirin (CHEBI:15365)", 3) : String × Nat).2 =
        aggCount [exStmt1Stripped] exEv name := by
  have hab : agent_by_name [exStmt1Stripped] = [("aspirin", exAspirin)] := rfl
  have hlist : drug_list [exStmt1Stripped] exEv = [("aspirin (CHEBI:15365)", 3)] := by
    simp only [drug_list]
    rw [hab, List.mergeSort_singleton]
    rfl
  refine ⟨?_, ?_⟩
  · rw [hlist]
    exact List.mem_cons_self _ _
  · exact (C1_drug_list_ranked [exStmt1Stripped] exEv).2 ("aspirin (CHEBI:15365)", 3)
      (by rw [hlist]; exact List.mem_cons_self _ _)

theorem strFoldl_shift :
    ∀ (l : List String) (acc : String),
      l.foldl (fun r s => r ++ s) acc = acc ++ String.join l
  | [], acc => (String.append_empty acc).symm
  | a :: l, acc => by
      rw [List.foldl_cons]
      rw [strFoldl_shift l (acc ++ a)]
      show (acc ++ a) ++ String.join l =
        acc ++ List.foldl (fun r s => r ++ s) "" (a :: l)
      rw [List.foldl_cons]
      rw [strFoldl_shift l ("" ++ a)]
      rw [show ("" ++ a) = a from rfl]
      rw [String.append_assoc]

theorem strJoin_cons (a : String) (l : List String) :
    String.join (a :: l) = a ++ String.join l := by
  show List.foldl (fun r s => r ++ s) "" (a :: l) = a ++ String.join l
  rw [List.foldl_cons]
  rw [show ("" ++ a) = a from rfl]
  exact strFoldl_shift l a

theorem foldl_append_join (f : String × Nat → String) :
    ∀ (l : List (String × Nat)) (acc : String),
      l.foldl (fun acc c => acc ++ f c) acc = acc ++ String.join (l.map f)
  | [], acc => (String.append_empty acc).symm
  | c :: l, acc => by
      rw [List.foldl_cons, foldl_append_join f l (acc ++ f c), List.map_cons,
        strJoin_cons, String.append_assoc]

/-- C6 amended: every chunk written to the drug-list file renders a
(compound, aggregated count) pair as compound, count, and the fixed third
column INDRA (text mining/databases), tab separated and newline
terminated; the file is their concatenation. -/
theorem C6_drug_list_file_lines (stmts : List Stmt) (ev : Int → Option Nat) :
    drug_list_file stmts ev =
      String.join ((drug_list stmts ev).map
        (fun p => p.1 ++ "\t" ++ toString p.2 ++ "\t" ++
          "INDRA (text mining/databases)" ++ "\n")) := by
  unfold drug_list_file
  have hfun :
      (fun acc (c : String × Nat) =>
        acc ++ c.1 ++ "\t" ++ toString c.2 ++ "\t" ++
          "INDRA (text mining/databases)" ++ "\n") =
      (fun acc c =>
        acc ++ (c.1 ++ "\t" ++ toString c.2 ++ "\t" ++
          "INDRA (text mining/databases)" ++ "\n")) := by
    funext acc c
    simp [String.append_assoc]
  rw [hfun]
  exact foldl_append_join _ (drug_list stmts ev) ""

/-- C6 counterexample: at a concrete input the file line is not just the
compound and its count; the code also writes a third tab-separated
column. -/
theorem C6_two_column_claim_false :
    drug_list_file [exStmt1Stripped] exEv ≠
      String.join ((drug_list [exStmt1Stripped] exEv).map
        (fun p => p.1 ++ "\t" ++ toString p.2 ++ "\n")) := by
  have hab : agent_by_name [exStmt1Stripped] = [("aspirin", exAspirin)] := rfl
  have hlist : drug_list [exStmt1Stripped] exEv = [("aspirin (CHEBI:15365)", 3)] := by
    simp only [drug_list]
    rw [hab, List.mergeSort_singleton]
    rfl
  unfold drug_list_file
  rw [hlist]
  decide

theorem loopE_step (env : EnvE) (t : String) (ts : List String)
    (A : List Stmt) (E : Int → Option Nat) (U : List Upload)
    (s : List Stmt) (e : Int → Option Nat)
    (hg : env.getStmts t = .ok (s, e))
    (hh : env.makeHtml t = .ok ())
    (hu : env.upload t = .ok ()) :
    loopE env (t :: ts) (A, E, U) =
      loopE env ts
        (A ++ s, mergeEv E e,
         U ++ [{ bucket := "indra-covid19",
                 key := "drugs_for_target/" ++ t ++ ".html",
                 acl := "public-read",
                 contentType := "text/html" }]) := by
  rw [loopE]
  simp only [hg, hh, hu]

/-- C5: under an environment in which every external call succeeds, the
main block runs over exactly the five targets TMPRSS2, ACE2, FURIN, CTSB,
CTSL in order and uploads, for each, exactly one file at key
drugs_for_target/<target>.html in bucket indra-covid19 with ACL
public-read and content type text/html. -/
theorem C5_main_loop_uploads (env : EnvE)
    (hdb : env.getDb = .ok ())
    (hcur : env.getCurations = .ok ())
    (htas : env.tasWeb = .ok ())
    (hstmts : ∀ t, ∃ r, env.getStmts t = .ok r)
    (hhtml : ∀ t, env.makeHtml t = .ok ())
    (hup : ∀ t, env.upload t = .ok ()) :
    mainUploads env =
      some (targets.map (fun t =>
        { bucket := "indra-covid19",
          key := "drugs_for_target/" ++ t ++ ".html",
          acl := "public-read",
          contentType := "text/html" })) := by
  obtain ⟨r1, h1⟩ := hstmts "TMPRSS2"
  obtain ⟨s1, e1⟩ := r1
  obtain ⟨r2, h2⟩ := hstmts "ACE2"
  obtain ⟨s2, e2⟩ := r2
  obtain ⟨r3, h3⟩ := hstmts "FURIN"
  obtain ⟨s3, e3⟩ := r3
  obtain ⟨r4, h4⟩ := hstmts "CTSB"
  obtain ⟨s4, e4⟩ := r4
  obtain ⟨r5, h5⟩ := hstmts "CTSL"
  obtain ⟨s5, e5⟩ := r5
  have hloop :
      loopE env targets ([], fun _ => none, []) =
        loopE env [] ((([] : List Stmt) ++ s1 ++ s2 ++ s3 ++ s4 ++ s5),
          mergeEv (mergeEv (mergeEv (mergeEv (mergeEv (fun _ => none) e1) e2) e3) e4) e5,
          (([] : List Upload) ++
            [{ bucket := "indra-covid19",
               key := "drugs_for_target/" ++ "TMPRSS2" ++ ".html",
               acl := "public-read", contentType := "text/html" }] ++
            [{ bucket := "indra-covid19",
               key := "drugs_for_target/" ++ "ACE2" ++ ".html",
               acl := "public-read", contentType := "text/html" }] ++
            [{ bucket := "indra-covid19",
               key := "drugs_for_target/" ++ "FURIN" ++ ".html",
               acl := "public-read", contentType := "text/html" }] ++
            [{ bucket := "indra-covid19",
               key := "drugs_for_target/" ++ "CTSB" ++ ".html",
               acl := "public-read", contentType := "text/html" }] ++
            [{ bucket := "indra-covid19",
               key := "drugs_for_target/" ++ "CTSL" ++ ".html",
               acl := "public-read", contentType := "text/html" }])) := by
    show loopE env ["TMPRSS2", "ACE2", "FURIN", "CTSB", "CTSL"]
        ([], fun _ => none, []) = _
    rw [loopE_step env _ _ _ _ _ _ _ h1 (hhtml _) (hup _)]
    rw [loopE_step env _ _ _ _ _ _ _ h2 (hhtml _) (hup _)]
    rw [loopE_step env _ _ _ _ _ _ _ h3 (hhtml _) (hup _)]
    rw [loopE_step env _ _ _ _ _ _ _ h4 (hhtml _) (hup _)]
    rw [loopE_step env _ _ _ _ _ _ _ h5 (hhtml _) (hup _)]
  unfold mainUploads mainE
  rw [hdb, hcur, htas, hloop]
  rfl

/-- C5 witness: the concrete all-success environment yields exactly the
five uploads, in target order. -/
theorem C5_witness :
    mainUploads exEnvOk =
      some (targets.map (fun t =>
        { bucket := "indra-covid19",
          key := "drugs_for_target/" ++ t ++ ".html",
          acl := "public-read",
          contentType := "text/html" })) :=
  C5_main_loop_uploads exEnvOk rfl rfl rfl
    (fun _ => ⟨([], fun _ => none), rfl⟩) (fun _ => rfl) (fun _ => rfl)

theorem loopE_fail_getStmts (env : EnvE) (t : String) (post : List String)
    (A : List Stmt) (E : Int → Option Nat) (U : List Upload) (e : String)
    (hg : env.getStmts t = .error e) :
    loopE env (t :: post) (A, E, U) = .error e := by
  rw [loopE]
  simp only [hg]

theorem loopE_fail_makeHtml (env : EnvE) (t : String) (post : List String)
    (A : List Stmt) (E : Int → Option Nat) (U : List Upload) (e : String)
    (s : List Stmt) (ev : Int → Option Nat)
    (hg : env.getStmts t = .ok (s, ev))
    (hh : env.makeHtml t = .error e) :
    loopE env (t :: post) (A, E, U) = .error e := by
  rw [loopE]
  simp only [hg, hh]

theorem loopE_fail_upload (env : EnvE) (t : String) (post : List String)
    (A : List Stmt) (E : Int → Option Nat) (U : List Upload) (e : String)
    (s : List Stmt) (ev : Int → Option Nat)
    (hg : env.getStmts t = .ok (s, ev))
    (hh : env.makeHtml t = .ok ())
    (hu : env.upload t = .error e) :
    loopE env (t :: post) (A, E, U) = .error e := by
  rw [loopE]
  simp only [hg, hh, hu]

theorem loopE_append_ok (env : EnvE) :
    ∀ (pre rest : List String) (acc : List Stmt × (Int → Option Nat) × List Upload),
      (∀ u ∈ pre, okTarget env u) →
      ∃ acc2, loopE env (pre ++ rest) acc = loopE env rest acc2
  | [], rest, acc, _ => ⟨acc, rfl⟩
  | u :: pre, rest, acc, hok => by
      obtain ⟨A, E, U⟩ := acc
      obtain ⟨⟨r, hg⟩, hh, hu⟩ := hok u (List.mem_cons_self u pre)
      obtain ⟨s, ev⟩ := r
      obtain ⟨acc2, h2⟩ := loopE_append_ok env pre rest
        (A ++ s, mergeEv E ev,
         U ++ [{ bucket := "indra-covid19",
                 key := "drugs_for_target/" ++ u ++ ".html",
                 acl := "public-read", contentType := "text/html" }])
        (fun v hv => hok v (List.mem_cons_of_mem _ hv))
      refine ⟨acc2, ?_⟩
      rw [List.cons_append]
      rw [loopE_step env u (pre ++ rest) A E U s ev hg hh hu]
      exact h2

/-- C7: no error handling exists anywhere in the script: whichever external
call fails first, with all calls before it succeeding, its exception
propagates out of the main block unchanged; there is no retry and no
recovery branch. -/
theorem C7_errors_propagate (env : EnvE) (e : String) :
    (env.getDb = .error e → mainE env = .error e) ∧
    (env.getDb = .ok () → env.getCurations = .error e → mainE env = .error e) ∧
    (env.getDb = .ok () → env.getCurations = .ok () → env.tasWeb = .error e →
      mainE env = .error e) ∧
    (∀ pre t post,
      env.getDb = .ok () → env.getCurations = .ok () → env.tasWeb = .ok () →
      targets = pre ++ t :: post → (∀ u ∈ pre, okTarget env u) →
      env.getStmts t = .error e → mainE env = .error e) ∧
    (∀ pre t post,
      env.getDb = .ok () → env.getCurations = .ok () → env.tasWeb = .ok () →
      targets = pre ++ t :: post → (∀ u ∈ pre, okTarget env u) →
      (∃ r, env.getStmts t = .ok r) → env.makeHtml t = .error e →
      mainE env = .error e) ∧
    (∀ pre t post,
      env.getDb = .ok () → env.getCurations = .ok () → env.tasWeb = .ok () →
      targets = pre ++ t :: post → (∀ u ∈ pre, okTarget env u) →
      (∃ r, env.getStmts t = .ok r) → env.makeHtml t = .ok () →
      env.upload t = .error e → mainE env = .error e) := by
  refine ⟨?_, ?_, ?_, ?_, ?_, ?_⟩
  · intro h
    unfold mainE
    rw [h]
  · intro h1 h2
    unfold mainE
    rw [h1, h2]
  · intro h1 h2 h3
    unfold mainE
    rw [h1, h2, h3]
  · intro pre t post h1 h2 h3 htgt hok hg
    unfold mainE
    rw [h1, h2, h3, htgt]
    obtain ⟨acc2, hpre⟩ := loopE_append_ok env pre (t :: post)
      ([], fun _ => none, []) hok
    rw [hpre]
    obtain ⟨A, E, U⟩ := acc2
    rw [loopE_fail_getStmts env t post A E U e hg]
  · intro pre t post h1 h2 h3 htgt hok hg hh
    obtain ⟨r, hgok⟩ := hg
    obtain ⟨s, ev⟩ := r
    unfold mainE
    rw [h1, h2, h3, htgt]
    obtain ⟨acc2, hpre⟩ := loopE_append_ok env pre (t :: post)
      ([], fun _ => none, []) hok
    rw [hpre]
    obtain ⟨A, E, U⟩ := acc2
    rw [loopE_fail_makeHtml env t post A E U e s ev hgok hh]
  · intro pre t post h1 h2 h3 htgt hok hg hh hu
    obtain ⟨r, hgok⟩ := hg
    obtain ⟨s, ev⟩ := r
    unfold mainE
    rw [h1, h2, h3, htgt]
    obtain ⟨acc2, hpre⟩ := loopE_append_ok env pre (t :: post)
      ([], fun _ => none, []) hok
    rw [hpre]
    obtain ⟨A, E, U⟩ := acc2
    rw [loopE_fail_upload env t post A E U e s ev hgok hh hu]

/-- C7 witness: in a concrete environment in which building the DB handle
raises, the script terminates with that exception. -/
theorem C7_witness : mainE exEnvBad = .error "db down" :=
  (C7_errors_propagate exEnvBad "db down").1 rfl

/-- C10 witness: the equivalence instantiated at a concrete statement list
whose evidence sources are among the fixed keys. -/
theorem C10_witness :
    ((source_counts [exStmt1Stripped]).isSome ↔
      allSourcesKnown [exStmt1Stripped] = true) :=
  C10_source_tally_total_iff_sources_known [exStmt1Stripped]
